import Mathlib

/-!
Verification development for the News-Portal repository.

The definitions below are a shallow embedding, in Lean 4, of the pure core of
the repository's RSS aggregation engine:

* the text normalizer and keyword/synonym matcher of the `RSSNewsScraper`
  class (`src/scrapers/sites/RSSNewsScraper.js`; the identical functions also
  appear in the scraper class bundled in `src/routes/index.js`),
* the content validator `isValidNews` and the category classifier
  `detectCategory` of the scraper class in `src/routes/index.js` (the fuller
  of the two copies present in the repository),
* the keyword filter of `scrapeFromFeed`, the scoring / sorting /
  deduplication tail of `liveSearch`, and
* the upsert loop of `ScraperService.saveNews`
  (`src/services/ScraperService.js`).

JavaScript strings are modelled as Lean `String` (a list of characters);
timestamps are milliseconds since the epoch, modelled as `Int`.  Network and
database effects are replaced by explicit parameters: the list of aggregated
feed items stands for the fetched feeds, and a behaviour function stands for
the MongoDB driver.
-/

namespace NewsPortal

/-! ## JavaScript string primitives -/

/-- Model of `String.prototype.toLowerCase` restricted to the characters that
occur in this development: ASCII letters and the Turkish Latin letters
Ç, Ğ, Ö, Ü, Ş.  (The letter İ, U+0130, whose JavaScript lowering is the two
code points "i" + combining dot, does not occur in the modelled inputs or
dictionaries and is left unchanged.) -/
def jsToLower (c : Char) : Char :=
  if 'A' ≤ c ∧ c ≤ 'Z' then Char.ofNat (c.toNat + 32)
  else if c = 'Ç' then 'ç'
  else if c = 'Ğ' then 'ğ'
  else if c = 'Ö' then 'ö'
  else if c = 'Ü' then 'ü'
  else if c = 'Ş' then 'ş'
  else c

/-- Whitespace characters recognised by JavaScript `trim` and by the regex
class `\s` (the common ones: space, tab, newline, carriage return, form feed,
vertical tab). -/
def jsIsWhitespace (c : Char) : Bool :=
  c = ' ' || c = '\t' || c = '\n' || c = '\x0d' || c = '\x0c' || c = '\x0b'

/-- Model of `String.prototype.trim` on a character list: drop whitespace from
both ends. -/
def jsTrimList (l : List Char) : List Char :=
  ((l.dropWhile jsIsWhitespace).reverse.dropWhile jsIsWhitespace).reverse

/-- Model of `String.prototype.trim`. -/
def jsTrim (s : String) : String :=
  ⟨jsTrimList s.data⟩

/-- Characters matched by the JavaScript regex class `\w`:
`[A-Za-z0-9_]`. -/
def isWordChar (c : Char) : Bool :=
  ('a' ≤ c && c ≤ 'z') || ('A' ≤ c && c ≤ 'Z') || ('0' ≤ c && c ≤ '9') || c = '_'

/-- Word-character test on an optional character; `none` (outside the string)
counts as a non-word position. -/
def isWordOpt : Option Char → Bool
  | none => false
  | some c => isWordChar c

/-- Substring test on character lists: `listHasSub hay pat` holds when `pat`
occurs contiguously in `hay` (model of `String.prototype.includes`). -/
def listHasSub (hay pat : List Char) : Bool :=
  pat.isPrefixOf hay ||
    match hay with
    | [] => false
    | _ :: t => listHasSub t pat

/-- Model of `String.prototype.includes`. -/
def strIncludes (hay pat : String) : Bool :=
  listHasSub hay.data pat.data

/-- Model of `String.prototype.startsWith`. -/
def strStartsWith (s pre : String) : Bool :=
  pre.data.isPrefixOf s.data

/-- Model of `String.prototype.substring(0, n)`. -/
def strTake (s : String) (n : Nat) : String :=
  ⟨s.data.take n⟩

/-- JavaScript `a || b` on an optional string, where `null`/`undefined` and
the empty string are falsy. -/
def jsOrStr (a : Option String) (b : String) : String :=
  match a with
  | none => b
  | some s => if s.isEmpty then b else s

/-! ## Text normalizer and keyword matcher
(`normalizeText`, `getSynonyms`, `matchesKeyword`, `countKeywordOccurrences`
of `RSSNewsScraper`, `src/scrapers/sites/RSSNewsScraper.js` lines 116-172). -/

/-- Source: `normalizeText(text)` — `text.toLowerCase().trim()`, with the
empty string for a falsy input. -/
def normalizeText (text : String) : String :=
  ⟨jsTrimList (text.data.map jsToLower)⟩

/-- Source: the `synonyms` table of `src/scrapers/sites/RSSNewsScraper.js`
(lines 96-111). -/
def synonymTable : List (String × List String) :=
  [ ("dolar", ["usd", "amerikan dolari", "dolarin", "dolarda"])
  , ("euro", ["eur", "avro", "euronun"])
  , ("enflasyon", ["tufe", "tuik"])
  , ("faiz", ["politika faizi", "tcmb faizi"])
  , ("borsa", ["bist", "bist100", "borsa istanbul"])
  , ("altin", ["ons", "gram altin", "ceyrek altin"])
  , ("merkez bankasi", ["tcmb", "mb"])
  , ("kripto", ["bitcoin", "btc", "ethereum", "eth"])
  , ("petrol", ["brent", "varil"])
  , ("fenerbahce", ["fener", "fb", "sari lacivert"])
  , ("galatasaray", ["gs", "cimbom", "sari kirmizi"])
  , ("besiktas", ["bjk", "kartal"])
  , ("trabzonspor", ["ts", "bordo mavi"])
  , ("yapay zeka", ["ai", "chatgpt", "gpt"]) ]

/-- Deduplication preserving first occurrences, the model of
`[...new Set(list)]`. -/
def jsSetDedup (seen : List String) : List String → List String
  | [] => []
  | x :: t => if x ∈ seen then jsSetDedup seen t else x :: jsSetDedup (x :: seen) t

/-- Source: `getSynonyms(keyword)` — the normalized keyword, followed by every
table entry whose key or values contain it (key first, then its values),
deduplicated via `new Set`. -/
def getSynonyms (keyword : String) : List String :=
  let nk := normalizeText keyword
  let synonymList :=
    nk :: synonymTable.foldr
      (fun p acc => if p.1 = nk || p.2.any (fun v => v = nk) then p.1 :: p.2 ++ acc else acc) []
  jsSetDedup [] synonymList

/-- Source: the Turkish noun-case suffix list of `matchesKeyword`
(`src/scrapers/sites/RSSNewsScraper.js` line 141). -/
def turkishSuffixes : List String :=
  ["", "in", "un", "a", "e", "i", "da", "de", "dan", "den", "la", "le", "lar", "ler"]

/-- Whether the regex `\b<pat>\b` (with `pat` a literal, as produced by
`escapeRegex`) matches at the current position of the text.  `prev` is the
character immediately before the current position (`none` at the start). -/
def wbMatchHere (pat text : List Char) (prev : Option Char) : Bool :=
  pat.isPrefixOf text &&
  (isWordOpt prev != isWordOpt text.head?) &&
  (isWordOpt (pat.getLast?.or prev) != isWordOpt ((text.drop pat.length).head?))

/-- Whether the regex `\b<pat>\b` matches anywhere in the text
(model of `RegExp.prototype.test`). -/
def wbTestAux (pat : List Char) : Option Char → List Char → Bool
  | prev, [] => wbMatchHere pat [] prev
  | prev, c :: rest => wbMatchHere pat (c :: rest) prev || wbTestAux pat (some c) rest

/-- Regex test of `\b<pat>\b` against a whole string. -/
def wbTest (pat : String) (text : String) : Bool :=
  wbTestAux pat.data none text.data

/-- Source: `matchesKeyword(text, keyword)` — for every synonym of the
keyword and every Turkish suffix, test the word-boundary pattern
`\b<synonym + suffix>\b` against the normalized text; false for a falsy text
or keyword.  Case-insensitivity (`i` flag) is realised by the lowercasing in
`normalizeText` — all patterns are already lowercase. -/
def matchesKeyword (text keyword : String) : Bool :=
  if text.isEmpty || keyword.isEmpty then false
  else
    let normalizedText := normalizeText text
    (getSynonyms keyword).any fun syn =>
      turkishSuffixes.any fun suffix =>
        wbTest (syn ++ suffix) normalizedText

/-- Length of the leading run of word characters (the greedy `\w*`). -/
def leadingWordCount : List Char → Nat
  | [] => 0
  | c :: t => if isWordChar c then leadingWordCount t + 1 else 0

/-- Length of the match of the regex `\b<pat>\w*\b` anchored at the current
position, or `none` when it does not match there.  The greedy `\w*` takes the
maximal word run; the closing `\b` then holds automatically when the run is
nonempty, and otherwise requires the preceding character to be a word
character. -/
def wwMatchLenHere (pat text : List Char) (prev : Option Char) : Option Nat :=
  if pat.isPrefixOf text && (isWordOpt prev != isWordOpt text.head?) then
    let rest := text.drop pat.length
    let w := leadingWordCount rest
    if w > 0 then some (pat.length + w)
    else if isWordOpt (pat.getLast?.or prev) != isWordOpt rest.head? then some pat.length
    else none
  else none

/-- Number of matches of the global regex `\b<pat>\w*\b` (flag `g`): repeated
leftmost match, resuming after each match (advancing one position after an
empty match, as the JavaScript engine does).  The scan consumes at least one
text character per step, so the fuel `text.length + 1` supplied by `wwCount`
always suffices; fuel (rather than well-founded recursion) keeps the
definition reducible inside the kernel. -/
def wwCountAux (pat : List Char) : Nat → Option Char → List Char → Nat
  | 0, _, _ => 0
  | _ + 1, prev, [] => if (wwMatchLenHere pat [] prev).isSome then 1 else 0
  | fuel + 1, prev, c :: rest =>
    match wwMatchLenHere pat (c :: rest) prev with
    | none => wwCountAux pat fuel (some c) rest
    | some 0 => 1 + wwCountAux pat fuel (some c) rest
    | some (n + 1) => 1 + wwCountAux pat fuel (((c :: rest).take (n + 1)).getLast?) (rest.drop n)

/-- Count of matches of `\b<pat>\w*\b` in a whole string. -/
def wwCount (pat : String) (text : String) : Nat :=
  wwCountAux pat.data (text.data.length + 1) none text.data

/-- Source: `countKeywordOccurrences(text, keyword)` — sum, over every
synonym of the keyword, of the number of matches of the global regex
`\b<synonym>\w*\b` in the normalized text; `0` for a falsy text or keyword. -/
def countKeywordOccurrences (text keyword : String) : Nat :=
  if text.isEmpty || keyword.isEmpty then 0
  else
    let normalizedText := normalizeText text
    (getSynonyms keyword).foldl (fun count syn => count + wwCount syn normalizedText) 0

/-! ## Content validator
(`isValidNews` of the scraper class in `src/routes/index.js`, lines 283-324;
the copy in `src/scrapers/sites/RSSNewsScraper.js` implements only the spam
and minimum-length checks of this validator). -/

/-- Source: the `spamKeywords` list (identical in both scraper copies). -/
def spamKeywords : List String :=
  ["casino", "bahis", "kumar", "sex", "porno", "xxx"]

/-- Source: the `invalidPatterns` list of footer/legal/navigation/CTA
boilerplate phrases (`src/routes/index.js` lines 134-182), in source order. -/
def invalidPatterns : List String :=
  [ "tüm hakları saklıdır", "all rights reserved", "copyright", "© 20"
  , "gizlilik politikası", "kullanım koşulları", "çerez politikası", "kvkk"
  , "kişisel verilerin korunması", "iletişim formu", "bize ulaşın"
  , "reklam ver", "künye", "hakkımızda", "site haritası", "abone ol"
  , "bülten", "newsletter", "üye girişi", "kayıt ol", "şifremi unuttum"
  , "ana sayfa", "anasayfa", "kategoriler", "etiketler", "arşiv"
  , "son haberler", "popüler haberler", "en çok okunanlar"
  , "reklam alanı", "sponsorlu içerik", "advertorial"
  , "bizi takip edin", "sosyal medya"
  , "facebook\x27ta paylaş", "twitter\x27da paylaş"
  , "devamını oku", "daha fazla", "tıklayın", "click here", "read more" ]

/-- Source: the `sourceOnlyPatterns` list inside `isValidNews`. -/
def sourceOnlyPatterns : List String :=
  ["ntv", "cnn türk", "hürriyet", "sözcü", "sabah", "habertürk"]

/-- Digits, for the date-only-title regex. -/
def isDigit (c : Char) : Bool :=
  '0' ≤ c && c ≤ '9'

/-- Source: the Turkish month alternation of `dateOnlyRegex`. -/
def turkishMonths : List String :=
  [ "ocak", "şubat", "mart", "nisan", "mayıs", "haziran"
  , "temmuz", "ağustos", "eylül", "ekim", "kasım", "aralık" ]

/-- Model of the regex
`^\d{1,2}\s+(ocak|şubat|...|aralık)\s+\d{4}$` applied to the (already
lowercased) title: one or two digits, whitespace, a Turkish month name,
whitespace, exactly four digits.  No month name is a prefix of another, so
the alternation is deterministic. -/
def isDateOnlyTitle (l : List Char) : Bool :=
  let digits := l.takeWhile isDigit
  let r1 := l.dropWhile isDigit
  if digits.length = 0 || 2 < digits.length then false
  else if (r1.takeWhile jsIsWhitespace).length = 0 then false
  else
    let r2 := r1.dropWhile jsIsWhitespace
    match turkishMonths.find? (fun m => m.data.isPrefixOf r2) with
    | none => false
    | some m =>
      let r3 := r2.drop m.data.length
      if (r3.takeWhile jsIsWhitespace).length = 0 then false
      else
        let r4 := r3.dropWhile jsIsWhitespace
        r4.length = 4 && r4.all isDigit

/-- Characters allowed by the garbled-encoding heuristic, the regex class
`[\w\sğüşıöçĞÜŞİÖÇ.,!?:;'"()-]`. -/
def isAllowedTitleChar (c : Char) : Bool :=
  isWordChar c || jsIsWhitespace c ||
    c ∈ ['ğ', 'ü', 'ş', 'ı', 'ö', 'ç', 'Ğ', 'Ü', 'Ş', 'İ', 'Ö', 'Ç',
         '.', ',', '!', '?', ':', ';', '(', ')', '-'] ||
    c = Char.ofNat 39 || c = Char.ofNat 34

/-- Count of title characters outside the allowed class (the length of the
match array of the global regex `[^\w\sğüşıöçĞÜŞİÖÇ.,!?:;'"()-]/g`). -/
def specialCharCount (l : List Char) : Nat :=
  (l.filter (fun c => !isAllowedTitleChar c)).length

/-- A raw feed entry as consumed by the validator and the feed fetcher:
the fields of `rss-parser` items that the modelled code reads.  Absent or
null fields are `none`. -/
structure FeedItem where
  title : Option String
  contentSnippet : Option String
  content : Option String
  summary : Option String
  link : Option String
  pubDate : Option Int
  deriving DecidableEq, Repr

/-- Source: `isValidNews(item)` of `src/routes/index.js` lines 283-324, the
rejection chain in source order: spam in the combined text, title shorter
than 15 or longer than 300 characters, a boilerplate phrase in the title, a
bare-URL title, a date-only title, a source-name-only title, more than 30%
special characters in the title.  The 30% comparison
`specialCharCount > title.length * 0.3` is modelled exactly on integers as
`10 * specialCharCount > 3 * title.length`. -/
def isValidNews (item : FeedItem) : Bool :=
  let title := normalizeText (jsOrStr item.title "")
  let content := normalizeText (jsOrStr item.contentSnippet (jsOrStr item.content ""))
  let combined := title ++ " " ++ content
  if spamKeywords.any (fun spam => strIncludes combined spam) then false
  else if title.length < 15 then false
  else if 300 < title.length then false
  else if invalidPatterns.any (fun pattern => strIncludes title pattern) then false
  else if strStartsWith title "http" || strStartsWith title "www." then false
  else if isDateOnlyTitle title.data then false
  else if sourceOnlyPatterns.any (fun s => title = s) then false
  else if 10 * specialCharCount title.data > 3 * title.length then false
  else true

/-- The combined spam check of `isValidNews`, named for the decomposition
theorem: no spam keyword occurs in `title + " " + content` (both
normalized). -/
def spamFree (item : FeedItem) : Bool :=
  let title := normalizeText (jsOrStr item.title "")
  let content := normalizeText (jsOrStr item.contentSnippet (jsOrStr item.content ""))
  !spamKeywords.any (fun spam => strIncludes (title ++ " " ++ content) spam)

/-- The checks of `isValidNews` that read only the (normalized) title,
named for the decomposition theorem. -/
def titleChecks (title : String) : Bool :=
  !(title.length < 15) && !(300 < title.length) &&
  !(invalidPatterns.any (fun pattern => strIncludes title pattern)) &&
  !(strStartsWith title "http" || strStartsWith title "www.") &&
  !(isDateOnlyTitle title.data) &&
  !(sourceOnlyPatterns.any (fun s => title = s)) &&
  !(10 * specialCharCount title.data > 3 * title.length)

/-- The non-length checks of `isValidNews` on the normalized title, named for
the length-claim theorem. -/
def titleChecksSansLength (title : String) : Bool :=
  !(invalidPatterns.any (fun pattern => strIncludes title pattern)) &&
  !(strStartsWith title "http" || strStartsWith title "www.") &&
  !(isDateOnlyTitle title.data) &&
  !(sourceOnlyPatterns.any (fun s => title = s)) &&
  !(10 * specialCharCount title.data > 3 * title.length)

/-- Turn one step of the early-return chain into a conjunction. -/
theorem ite_false_eq_and (p : Prop) [Decidable p] (b : Bool) :
    (if p then false else b) = (!(decide p) && b) := by
  by_cases h : p <;> simp [h]

/-- The two length checks in front of the other title checks. -/
theorem titleChecks_decompose (title : String) :
    titleChecks title =
      (!(title.length < 15) && !(300 < title.length) && titleChecksSansLength title) := by
  simp only [titleChecks, titleChecksSansLength, Bool.and_assoc]

/-! ## Category classifier
(`detectCategory` of the scraper class in `src/routes/index.js`,
lines 196-228, with its `categoryKeywords` table from lines 121-130). -/

/-- Source: the `categoryKeywords` table, in source (insertion) order. -/
def categoryKeywords : List (String × List String) :=
  [ ("Ekonomi",
     [ "dolar", "euro", "borsa", "hisse", "faiz", "enflasyon", "tcmb"
     , "merkez bankası", "kur", "altın", "bitcoin", "kripto", "bist"
     , "ekonomi", "finans", "yatırım", "piyasa", "ihracat", "ithalat"
     , "büyüme", "gsyh", "işsizlik", "bütçe", "vergi", "fiyat" ])
  , ("Spor",
     [ "galatasaray", "fenerbahçe", "beşiktaş", "trabzonspor", "süper lig"
     , "maç", "gol", "futbol", "basketbol", "voleybol", "şampiyonlar ligi"
     , "uefa", "fifa", "milli takım", "transfer", "teknik direktör", "spor"
     , "stadyum", "derbi" ])
  , ("Teknoloji",
     [ "iphone", "android", "samsung", "apple", "google", "yapay zeka", "ai"
     , "robot", "yazılım", "uygulama", "sosyal medya", "twitter", "instagram"
     , "facebook", "teknoloji", "bilgisayar", "telefon", "internet", "5g"
     , "siber" ])
  , ("Sağlık",
     [ "sağlık", "hastane", "doktor", "ilaç", "tedavi", "hastalık", "covid"
     , "grip", "aşı", "kanser", "ameliyat", "tıp", "hasta" ])
  , ("Magazin",
     [ "ünlü", "oyuncu", "şarkıcı", "dizi", "film", "konser", "düğün"
     , "boşanma", "magazin", "yıldız", "sanatçı", "moda", "güzellik" ])
  , ("Dünya",
     [ "abd", "amerika", "rusya", "çin", "avrupa", "almanya", "fransa"
     , "ingiltere", "savaş", "nato", "bm", "birleşmiş milletler"
     , "uluslararası", "dünya", "yurtdışı" ])
  , ("Gündem",
     [ "tbmm", "meclis", "bakan", "cumhurbaşkanı", "erdoğan", "hükümet"
     , "muhalefet", "seçim", "oy", "parti", "siyaset", "yasa", "kanun" ])
  , ("Son Dakika", [ "son dakika", "flaş", "acil", "breaking" ]) ]

/-- Model of `keyword.toLowerCase()`. -/
def jsToLowerStr (s : String) : String :=
  ⟨s.data.map jsToLower⟩

/-- Score of one category keyword list: for each keyword occurring in the
combined normalized text, 3 points when it occurs in the normalized title,
otherwise 1 point. -/
def categoryScore (titleN text : String) (kws : List String) : Nat :=
  kws.foldl
    (fun sc kw =>
      if strIncludes text (jsToLowerStr kw) then
        if strIncludes titleN (jsToLowerStr kw) then sc + 3 else sc + 1
      else sc)
    0

/-- The per-category scores of `detectCategory`, in table order. -/
def detectScores (title description : String) : List (String × Nat) :=
  let text := normalizeText (title ++ " " ++ description)
  let titleN := normalizeText title
  categoryKeywords.map (fun p => (p.1, categoryScore titleN text p.2))

/-- The best-category fold of `detectCategory`: starting from
`("Genel", 0)`, replace the accumulator whenever a strictly greater score is
scanned (first maximum wins). -/
def bestCategory (scores : List (String × Nat)) : String × Nat :=
  scores.foldl (fun acc p => if p.2 > acc.2 then p else acc) ("Genel", 0)

/-- Source: `detectCategory(title, description)` of `src/routes/index.js`
lines 196-228 — score every category, take the first maximum, and fall back
to `"Genel"` when the maximum score is below 2. -/
def detectCategory (title description : String) : String :=
  let best := bestCategory (detectScores title description)
  if 2 ≤ best.2 then best.1 else "Genel"

/-- The maximum category score, for stating the classifier claims. -/
def maxCategoryScore (title description : String) : Nat :=
  ((detectScores title description).map Prod.snd).foldl max 0

/-! ## Feed fetcher
(the per-item body of `scrapeFromFeed(feedKey, feedInfo, keyword)`,
`src/routes/index.js` lines 428-471; identical in
`src/scrapers/sites/RSSNewsScraper.js` lines 298-341).  Feed parsing, URL
resolution (`fixUrl`, WHATWG URL semantics) and image extraction
(`extractImageUrl` plus the optional article-page fallback) are I/O or
platform library calls and are injected as parameters; the claims do not
depend on them. -/

/-- A registry entry: `{url, category, source}` plus its key. -/
structure FeedInfo where
  key : String
  url : String
  category : String
  source : String
  deriving DecidableEq, Repr

/-- The canonical item pushed into `results` by `scrapeFromFeed` (and by
`searchGoogleNews`): the unit flowing through the aggregation pipeline. -/
structure AggItem where
  title : String
  description : String
  url : Option String
  imageUrl : Option String
  publishedAt : Int
  source : String
  category : String
  feedKey : String
  deriving DecidableEq, Repr

/-- Source: one iteration of the `for` loop of `scrapeFromFeed`.  `resolveUrl`
stands for `url => this.fixUrl(url, feedInfo.url)` and `resolveImage` for the
image-extraction logic; `now` is the clock used when `pubDate` is absent.
Returns `none` when the entry is dropped (validator failure or keyword
filter), otherwise the pushed record. -/
def processFeedItem (resolveUrl : Option String → Option String)
    (resolveImage : FeedItem → Option String → Option String)
    (now : Int) (fi : FeedInfo) (keyword : Option String)
    (item : FeedItem) : Option AggItem :=
  if !isValidNews item then none
  else
    let title := jsOrStr item.title ""
    let description := jsOrStr item.contentSnippet (jsOrStr item.content (jsOrStr item.summary ""))
    let keep :=
      match keyword with
      | none => true
      | some kw =>
        if kw.isEmpty then true
        else !(!matchesKeyword title kw && countKeywordOccurrences description kw < 2)
    if keep then
      let itemUrl := resolveUrl item.link
      some
        { title := jsTrim title
          description := jsTrim (strTake description 500)
          url := itemUrl
          imageUrl := resolveImage item itemUrl
          publishedAt := item.pubDate.getD now
          source := fi.source
          category := fi.category
          feedKey := fi.key }
    else none

/-- Source: the whole `for` loop of `scrapeFromFeed` over the parsed feed
items. -/
def scrapeFromFeedItems (resolveUrl : Option String → Option String)
    (resolveImage : FeedItem → Option String → Option String)
    (now : Int) (fi : FeedInfo) (keyword : Option String)
    (items : List FeedItem) : List AggItem :=
  items.filterMap (processFeedItem resolveUrl resolveImage now fi keyword)

/-! ## Aggregation orchestrator: the ranking tail of `liveSearch`
(`src/routes/index.js` lines 493-548, identical in
`src/scrapers/sites/RSSNewsScraper.js` lines 357-412).  The concurrent feed
fetching and random source sampling are I/O; the aggregated result list
`allResults` is a parameter, and `now` stands for `Date.now()`. -/

/-- A canonical item enriched with the transient `relevanceScore`. -/
structure ScoredItem extends AggItem where
  relevanceScore : Int
  deriving DecidableEq, Repr

/-- Source: the score accumulation inside `allResults.map(...)` of
`liveSearch`: occurrences in the title times 10, plus occurrences in the
description times 2, plus 5 for the Google News channel, plus the recency
bonus.  `hoursDiff < h` on the float `hoursDiff = (now - publishedAt) / 3.6e6`
is modelled exactly as the integer comparison `now - publishedAt < h * 3600000`
(exact for every integer millisecond difference). -/
def computeScore (keyword : String) (now : Int) (item : AggItem) : Int :=
  let score : Int := 0
  let score := score + (countKeywordOccurrences item.title keyword : Int) * 10
  let score := score + (countKeywordOccurrences item.description keyword : Int) * 2
  let score := score + (if item.category = "Google News" then 5 else 0)
  let msDiff := now - item.publishedAt
  let score := score +
    (if msDiff < 3600000 then 20
     else if msDiff < 6 * 3600000 then 10
     else if msDiff < 24 * 3600000 then 5 else 0)
  score

/-- Source: `allResults.map(item => ({...item, relevanceScore: score}))`. -/
def scoreAll (keyword : String) (now : Int) (items : List AggItem) : List ScoredItem :=
  items.map (fun item => { toAggItem := item, relevanceScore := computeScore keyword now item })

/-- Source: `scored.sort((a, b) => b.relevanceScore - a.relevanceScore)` — a
stable sort (guaranteed by ECMAScript 2019) placing `a` before `b` exactly
when the comparator is nonpositive, i.e. `b.relevanceScore ≤
a.relevanceScore`; modelled by the stable `List.mergeSort` with that
relation. -/
def sortByScore (l : List ScoredItem) : List ScoredItem :=
  l.mergeSort (fun a b => decide (b.relevanceScore ≤ a.relevanceScore))

/-- Source: the `seen`-set filter after sorting — a single pass keeping only
items with a truthy url (`!item.url` drops both a missing and an empty url),
and only the first occurrence of each url. -/
def dedupByUrl (seen : List String) : List ScoredItem → List ScoredItem
  | [] => []
  | x :: rest =>
    match x.url with
    | none => dedupByUrl seen rest
    | some u =>
      if u.isEmpty || u ∈ seen then dedupByUrl seen rest
      else x :: dedupByUrl (u :: seen) rest

/-- The deterministic ranking tail of `liveSearch`: score, sort descending,
deduplicate by url, truncate to `limit` (`unique.slice(0, limit)`). -/
def liveSearchRank (keyword : String) (now : Int) (limit : Nat)
    (allResults : List AggItem) : List ScoredItem :=
  (dedupByUrl [] (sortByScore (scoreAll keyword now allResults))).take limit

/-- Source: `liveSearch(keyword, options)` — the input validation
`if (!keyword || keyword.length < 2) throw new Error(...)` followed by the
ranking tail; the thrown error is modelled as `Except.error` with the
source's message. -/
def liveSearch (keyword : String) (now : Int) (limit : Nat)
    (allResults : List AggItem) : Except String (List ScoredItem) :=
  if keyword.isEmpty || keyword.length < 2 then
    Except.error "Arama kelimesi en az 2 karakter olmalidir"
  else
    Except.ok (liveSearchRank keyword now limit allResults)

/-- The relevance-score formula as the specification states it, for the
refinement theorem: `10 * titleOccurrences + 2 * descriptionOccurrences +
(5 if fromSupplementaryChannel) + recencyBonus`. -/
def recencyBonus (now publishedAt : Int) : Int :=
  if now - publishedAt < 3600000 then 20
  else if now - publishedAt < 6 * 3600000 then 10
  else if now - publishedAt < 24 * 3600000 then 5
  else 0

/-- The specification's relevance-score formula. -/
def specRelevanceScore (keyword : String) (now : Int) (item : AggItem) : Int :=
  10 * (countKeywordOccurrences item.title keyword : Int) +
    2 * (countKeywordOccurrences item.description keyword : Int) +
    (if item.category = "Google News" then 5 else 0) +
    recencyBonus now item.publishedAt

/-! ## Persistence upsert adapter
(`ScraperService.saveNews`, `src/services/ScraperService.js` lines 170-245).
The MongoDB collection is an association list keyed by url; the driver call
`News.updateOne({url}, {$set: ..., $setOnInsert: {createdAt}}, {upsert: true})`
is a behaviour function so that per-item driver failures can be modelled. -/

/-- The canonical item as handed to `saveNews` (the fields it reads). -/
structure NewsItem where
  title : String
  summary : String
  url : String
  imageUrl : Option String
  category : String
  source : String
  keywords : List String
  publishedAt : Int
  scrapedAt : Option Int
  deriving DecidableEq, Repr

/-- The stored record: the `$set` fields plus `createdAt`
(written only by `$setOnInsert`). -/
structure StoredRecord where
  title : String
  summary : String
  url : String
  imageUrl : Option String
  category : String
  source : String
  keywords : List String
  publishedAt : Int
  scrapedAt : Int
  isActive : Bool
  createdAt : Int
  deriving DecidableEq, Repr

/-- The stored collection, keyed uniquely by url. -/
def Db : Type := List (String × StoredRecord)

/-- Lookup by url (the `{url: ...}` filter). -/
def dbFind : Db → String → Option StoredRecord
  | [], _ => none
  | (k, v) :: t, u => if k = u then some v else dbFind t u

/-- Write-through: replace the binding of `u`, or append it when absent. -/
def dbSet : Db → String → StoredRecord → Db
  | [], u, r => [(u, r)]
  | (k, v) :: t, u, r => if k = u then (u, r) :: t else (k, v) :: dbSet t u r

/-- The `$set` document of the upsert: every mutable field from the item,
`scrapedAt` defaulting to the current time (`newsItem.scrapedAt || new
Date()`), `isActive` forced to true; `createdAt` comes from `$setOnInsert`
(the existing record's value on update, `now` on insert). -/
def applySet (now : Int) (it : NewsItem) (createdAt : Int) : StoredRecord :=
  { title := it.title
    summary := it.summary
    url := it.url
    imageUrl := it.imageUrl
    category := it.category
    source := it.source
    keywords := it.keywords
    publishedAt := it.publishedAt
    scrapedAt := it.scrapedAt.getD now
    isActive := true
    createdAt := createdAt }

/-- Source: the semantics of `News.updateOne({url}, {$set, $setOnInsert},
{upsert: true})`: update the record when the url exists
(`upsertedCount = 0`), insert with `createdAt = now` when it does not
(`upsertedCount = 1`).  Returns the `upsertedCount > 0` flag and the new
collection. -/
def updateOneUpsert (now : Int) (db : Db) (it : NewsItem) : Bool × Db :=
  match dbFind db it.url with
  | some old => (false, dbSet db it.url (applySet now it old.createdAt))
  | none => (true, dbSet db it.url (applySet now it now))

/-- Outcome of one driver call: success with the `upsertedCount > 0` flag and
the new collection, or a driver error carrying `error.code` and
`error.message`. -/
inductive DbResult where
  | ok (upserted : Bool) (db : Db)
  | err (code : Int) (msg : String)

/-- A driver behaviour: what `News.updateOne` does on a given collection and
item.  `mongoBehaviour` is the failure-free behaviour; other behaviours model
per-item driver failures (e.g. the `E11000` duplicate-key race). -/
def DbBehaviour : Type := Db → NewsItem → DbResult

/-- The failure-free driver behaviour. -/
def mongoBehaviour (now : Int) : DbBehaviour :=
  fun db it =>
    let r := updateOneUpsert now db it
    DbResult.ok r.1 r.2

/-- The result object of `saveNews`: `{saved, duplicates, errors}` with
errors as `(url, message)` pairs. -/
structure SaveResult where
  saved : Nat
  duplicates : Nat
  errors : List (String × String)
  deriving DecidableEq, Repr

/-- Source: the `for` loop of `saveNews` — per item, a successful upsert
increments `saved` (insert) or `duplicates` (update); a driver error with
`code === 11000` increments `duplicates`; any other driver error appends
`{url, error: message}` to `errors`; the loop always continues. -/
def saveNewsLoop (beh : DbBehaviour) : Db → SaveResult → List NewsItem → Db × SaveResult
  | db, acc, [] => (db, acc)
  | db, acc, it :: rest =>
    match beh db it with
    | DbResult.ok true db2 => saveNewsLoop beh db2 { acc with saved := acc.saved + 1 } rest
    | DbResult.ok false db2 => saveNewsLoop beh db2 { acc with duplicates := acc.duplicates + 1 } rest
    | DbResult.err code msg =>
      if code = 11000 then saveNewsLoop beh db { acc with duplicates := acc.duplicates + 1 } rest
      else saveNewsLoop beh db { acc with errors := acc.errors ++ [(it.url, msg)] } rest

/-- Source: `saveNews(newsArray)` starting from the zeroed result object. -/
def saveNews (beh : DbBehaviour) (db : Db) (items : List NewsItem) : Db × SaveResult :=
  saveNewsLoop beh db { saved := 0, duplicates := 0, errors := [] } items

/-! ## Claim theorems -/

/-- Decomposition of the validator: the description enters `isValidNews` only
through the spam check; every other check reads the normalized title. -/
theorem isValidNews_decompose (item : FeedItem) :
    isValidNews item =
      (spamFree item && titleChecks (normalizeText (jsOrStr item.title ""))) := by
  simp only [isValidNews, spamFree, titleChecks, titleChecksSansLength, ite_false_eq_and,
    Bool.decide_coe, Bool.and_assoc, Bool.and_true]

/-- C3: `liveSearch` fails with the `InvalidArgument` error
"Arama kelimesi en az 2 karakter olmalidir" exactly for keywords of length
strictly less than 2 (the empty string and one-character keywords such as
"a"), and succeeds for every keyword of length at least 2 (such as "ab"). -/
theorem liveSearch_keyword_validation (kw : String) (now : Int) (limit : Nat)
    (res : List AggItem) :
    (liveSearch kw now limit res).isOk = decide (2 ≤ kw.length) ∧
    (kw.length < 2 →
      liveSearch kw now limit res =
        Except.error "Arama kelimesi en az 2 karakter olmalidir") ∧
    (2 ≤ kw.length →
      liveSearch kw now limit res = Except.ok (liveSearchRank kw now limit res)) := by
  have hE : kw.isEmpty = true → kw.length < 2 := by
    intro h
    rw [String.isEmpty_iff] at h
    subst h
    decide
  by_cases h : kw.length < 2
  · have hnot : ¬(2 ≤ kw.length) := by omega
    refine ⟨?_, fun _ => ?_, fun h2 => absurd h2 hnot⟩ <;>
      simp [liveSearch, h, hnot, Except.isOk, Except.toBool]
  · have hE2 : kw.isEmpty = false := by
      cases hq : kw.isEmpty
      · rfl
      · exact absurd (hE hq) h
    have h2 : 2 ≤ kw.length := by omega
    refine ⟨?_, fun h1 => absurd h1 h, fun _ => ?_⟩ <;>
      simp [liveSearch, h, hE2, h2, Except.isOk, Except.toBool]

/-- Witness for C3 at the concrete inputs of the claim: the one-character
keyword "a" is rejected with the `InvalidArgument` error. -/
theorem liveSearch_keyword_validation_witness :
    liveSearch "a" 0 100 [] =
      Except.error "Arama kelimesi en az 2 karakter olmalidir" :=
  (liveSearch_keyword_validation "a" 0 100 []).2.1 (by decide)

/-- C4: `matchesKeyword` succeeds exactly when the word-boundary pattern of
some synonym of the keyword, extended by some Turkish suffix, matches the
normalized text; in particular keyword "dolar" matches
"Dolarin yukselisi durmuyor" and does not match "Euro yukseldi". -/
theorem matchesKeyword_turkish_suffixes (text kw : String) :
    (∀ syn suffix, syn ∈ getSynonyms kw → suffix ∈ turkishSuffixes →
      wbTest (syn ++ suffix) (normalizeText text) = true →
      text.isEmpty = false → kw.isEmpty = false →
      matchesKeyword text kw = true) ∧
    (matchesKeyword text kw = true →
      ∃ syn ∈ getSynonyms kw, ∃ suffix ∈ turkishSuffixes,
        wbTest (syn ++ suffix) (normalizeText text) = true) ∧
    matchesKeyword "Dolarin yukselisi durmuyor" "dolar" = true ∧
    matchesKeyword "Euro yukseldi" "dolar" = false := by
  refine ⟨?_, ?_, by decide, by decide⟩
  · intro syn suffix hsyn hsuf hwb ht hk
    simp only [matchesKeyword, ht, hk, Bool.or_self, Bool.false_eq_true, if_false,
      List.any_eq_true]
    exact ⟨syn, hsyn, suffix, hsuf, hwb⟩
  · intro h
    simp only [matchesKeyword] at h
    split at h
    · exact absurd h (by simp)
    · simpa only [List.any_eq_true] using h

/-- Witness for C4: the claim instance obtained by applying the expansion
direction at synonym "dolarin" with the empty suffix. -/
theorem matchesKeyword_turkish_suffixes_witness :
    matchesKeyword "Dolarin yukselisi durmuyor" "dolar" = true :=
  (matchesKeyword_turkish_suffixes "Dolarin yukselisi durmuyor" "dolar").1
    "dolarin" "" (by decide) (by decide) (by decide) (by decide) (by decide)

/-- C5: a boilerplate phrase in the (normalized) title forces rejection;
the description influences the validator only through the spam check, so a
boilerplate phrase only in the description does not cause rejection; the
claimed concrete instances evaluate as stated. -/
theorem isValidNews_rejects_boilerplate_title (item : FeedItem) :
    ((∃ p ∈ invalidPatterns,
        strIncludes (normalizeText (jsOrStr item.title "")) p = true) →
      isValidNews item = false) ∧
    isValidNews item =
      (spamFree item && titleChecks (normalizeText (jsOrStr item.title ""))) ∧
    isValidNews
      { title := some "Tüm hakları saklıdır © 2024"
        contentSnippet := some "Sitedeki içerikler izinsiz kullanılamaz"
        content := none, summary := none, link := none, pubDate := none } = false ∧
    isValidNews
      { title := some "Merkez Bankası faiz kararını açıkladı"
        contentSnippet := some "Banka politika faizini sabit tuttu"
        content := none, summary := none, link := none, pubDate := none } = true ∧
    isValidNews
      { title := some "Piyasalarda bugün neler oldu dersiniz"
        contentSnippet := some "tüm hakları saklıdır © 2024"
        content := none, summary := none, link := none, pubDate := none } = true := by
  refine ⟨?_, isValidNews_decompose item, by decide, by decide, by decide⟩
  intro ⟨p, hp, hinc⟩
  rw [isValidNews_decompose item, titleChecks_decompose]
  have hany : invalidPatterns.any
      (fun pattern => strIncludes (normalizeText (jsOrStr item.title "")) pattern) = true :=
    List.any_eq_true.mpr ⟨p, hp, hinc⟩
  simp [titleChecksSansLength, hany]

/-- Witness for C5: the rejection clause applied at the concrete boilerplate
title of the claim. -/
theorem isValidNews_rejects_boilerplate_title_witness :
    isValidNews
      { title := some "Tüm hakları saklıdır © 2024"
        contentSnippet := some "Sitedeki içerikler izinsiz kullanılamaz"
        content := none, summary := none, link := none, pubDate := none } = false :=
  (isValidNews_rejects_boilerplate_title _).1 ⟨"tüm hakları saklıdır", by decide, by decide⟩

/-- C6: the validator rejects every item whose normalized title is shorter
than 15 characters or longer than 300 characters, and for titles within
[15, 300] it reduces to the remaining (non-length) checks, so such titles
are never rejected on grounds of length. -/
theorem isValidNews_title_length_bounds (item : FeedItem) :
    ((normalizeText (jsOrStr item.title "")).length < 15 → isValidNews item = false) ∧
    (300 < (normalizeText (jsOrStr item.title "")).length → isValidNews item = false) ∧
    (15 ≤ (normalizeText (jsOrStr item.title "")).length →
      (normalizeText (jsOrStr item.title "")).length ≤ 300 →
      isValidNews item =
        (spamFree item &&
          titleChecksSansLength (normalizeText (jsOrStr item.title "")))) := by
  rw [isValidNews_decompose item, titleChecks_decompose]
  refine ⟨fun h => ?_, fun h => ?_, fun h1 h2 => ?_⟩
  · simp [h]
  · simp [h]
  · have hA : ¬((normalizeText (jsOrStr item.title "")).length < 15) := by omega
    have hB : ¬(300 < (normalizeText (jsOrStr item.title "")).length) := by omega
    simp [hA, hB]

set_option maxRecDepth 8000 in
/-- Witness for C6: the length clauses applied at concrete short, long and
in-range titles. -/
theorem isValidNews_title_length_bounds_witness :
    isValidNews
      { title := some "Kısa başlık", contentSnippet := some "Normal bir açıklama"
        content := none, summary := none, link := none, pubDate := none } = false ∧
    isValidNews
      { title := some (String.mk (List.replicate 301 'a'))
        contentSnippet := some "Normal bir açıklama"
        content := none, summary := none, link := none, pubDate := none } = false ∧
    isValidNews
      { title := some "Merkez Bankası faiz kararını açıkladı"
        contentSnippet := some "Banka politika faizini sabit tuttu"
        content := none, summary := none, link := none, pubDate := none } =
      (spamFree
        { title := some "Merkez Bankası faiz kararını açıkladı"
          contentSnippet := some "Banka politika faizini sabit tuttu"
          content := none, summary := none, link := none, pubDate := none } &&
        titleChecksSansLength (normalizeText "Merkez Bankası faiz kararını açıkladı")) :=
  ⟨(isValidNews_title_length_bounds _).1 (by decide),
   (isValidNews_title_length_bounds _).2.1 (by decide),
   (isValidNews_title_length_bounds _).2.2 (by decide) (by decide)⟩

/-- The second component of the best-category fold computes the running
maximum of the scanned scores. -/
theorem bestCategory_fold_snd (scores : List (String × Nat)) :
    ∀ acc : String × Nat,
      (scores.foldl (fun acc p => if p.2 > acc.2 then p else acc) acc).2 =
        (scores.map Prod.snd).foldl max acc.2 := by
  induction scores with
  | nil => intro acc; rfl
  | cons p t ih =>
    intro acc
    simp only [List.foldl_cons, List.map_cons]
    rw [ih]
    congr 1
    by_cases h : p.2 > acc.2
    · simp [h, Nat.max_eq_right (Nat.le_of_lt h)]
    · simp [h, Nat.max_eq_left (Nat.le_of_not_lt h)]

/-- The best-category fold returns the start accumulator or a scanned
entry. -/
theorem bestCategory_fold_mem (scores : List (String × Nat)) :
    ∀ acc : String × Nat,
      (scores.foldl (fun acc p => if p.2 > acc.2 then p else acc) acc) = acc ∨
        (scores.foldl (fun acc p => if p.2 > acc.2 then p else acc) acc) ∈ scores := by
  induction scores with
  | nil => intro acc; left; rfl
  | cons p t ih =>
    intro acc
    simp only [List.foldl_cons]
    rcases ih (if p.2 > acc.2 then p else acc) with h | h
    · rw [h]
      by_cases hc : p.2 > acc.2
      · right; simp [hc]
      · left; simp [hc]
    · right; exact List.mem_cons_of_mem p h

/-- A category whose keywords all miss the combined text scores zero. -/
theorem categoryScore_zero (titleN text : String) (kws : List String)
    (h : ∀ kw ∈ kws, strIncludes text (jsToLowerStr kw) = false) :
    categoryScore titleN text kws = 0 := by
  unfold categoryScore
  suffices aux : ∀ sc : Nat,
      kws.foldl
        (fun sc kw =>
          if strIncludes text (jsToLowerStr kw) then
            if strIncludes titleN (jsToLowerStr kw) then sc + 3 else sc + 1
          else sc)
        sc = sc from aux 0
  induction kws with
  | nil => intro sc; rfl
  | cons kw t ih =>
    intro sc
    have hk := h kw (List.mem_cons_self kw t)
    simp only [List.foldl_cons, hk, Bool.false_eq_true, if_false]
    exact ih (fun k hkmem => h k (List.mem_cons_of_mem kw hkmem)) sc

/-- The maximum category score equals the score tracked by the fold. -/
theorem maxCategoryScore_eq_best (t d : String) :
    maxCategoryScore t d = (bestCategory (detectScores t d)).2 := by
  rw [maxCategoryScore, bestCategory, bestCategory_fold_snd]

/-- C7: `detectCategory` scores every category keyword list (3 per keyword in
the title, 1 per keyword only in the description), returns "Genel" whenever
the maximum score is below 2 — in particular when no dictionary keyword
occurs in the combined text — and otherwise returns a category achieving the
maximum score. -/
theorem detectCategory_genel_fallback (t d : String) :
    ((∀ p ∈ categoryKeywords, ∀ kw ∈ p.2,
        strIncludes (normalizeText (t ++ " " ++ d)) (jsToLowerStr kw) = false) →
      detectCategory t d = "Genel") ∧
    (maxCategoryScore t d < 2 → detectCategory t d = "Genel") ∧
    (2 ≤ maxCategoryScore t d →
      (detectCategory t d, maxCategoryScore t d) ∈ detectScores t d) := by
  have hmax := maxCategoryScore_eq_best t d
  have h2 : maxCategoryScore t d < 2 → detectCategory t d = "Genel" := by
    intro h
    rw [hmax] at h
    have : ¬(2 ≤ (bestCategory (detectScores t d)).2) := by omega
    simp [detectCategory, this]
  refine ⟨?_, h2, ?_⟩
  · intro h
    apply h2
    have hzero : ∀ q ∈ detectScores t d, q.2 = 0 := by
      intro q hq
      simp only [detectScores, List.mem_map] at hq
      obtain ⟨p, hp, rfl⟩ := hq
      exact categoryScore_zero _ _ _ (h p hp)
    rw [maxCategoryScore]
    have : ∀ l : List (String × Nat), (∀ q ∈ l, q.2 = 0) →
        (l.map Prod.snd).foldl max 0 = 0 := by
      intro l
      induction l with
      | nil => intro _; rfl
      | cons q tl ih =>
        intro hl
        simp only [List.map_cons, List.foldl_cons, hl q (List.mem_cons_self q tl),
          Nat.max_self]
        exact ih (fun r hr => hl r (List.mem_cons_of_mem q hr))
    rw [this (detectScores t d) hzero]
    decide
  · intro h
    have hbest : 2 ≤ (bestCategory (detectScores t d)).2 := by rw [← hmax]; exact h
    have hcat : detectCategory t d = (bestCategory (detectScores t d)).1 := by
      simp [detectCategory, hbest]
    rcases bestCategory_fold_mem (detectScores t d) ("Genel", 0) with hacc | hmem
    · rw [bestCategory] at hbest
      rw [hacc] at hbest
      exact absurd hbest (by decide)
    · rw [hcat, hmax]
      exact hmem

/-- Witness for C7: the fallback clause on a keyword-free text and the
maximum clause on an economy headline. -/
theorem detectCategory_genel_fallback_witness :
    detectCategory "Hiçbir kelime yok burada" "sadece random metin" = "Genel" ∧
    (detectCategory "Dolar ve euro bugün rekor kırdı" "piyasa hareketli",
      maxCategoryScore "Dolar ve euro bugün rekor kırdı" "piyasa hareketli") ∈
        detectScores "Dolar ve euro bugün rekor kırdı" "piyasa hareketli" :=
  ⟨(detectCategory_genel_fallback _ _).1 (by decide),
   (detectCategory_genel_fallback _ _).2.2 (by decide)⟩

/-- C8: under a supplied keyword, a validator-passing feed entry is kept by
`scrapeFromFeed` exactly when the keyword matches the title or the keyword
occurs at least twice in the description; entries with no title match and at
most one description occurrence are dropped. -/
theorem scrapeFromFeed_keyword_filter
    (resolveUrl : Option String → Option String)
    (resolveImage : FeedItem → Option String → Option String)
    (now : Int) (fi : FeedInfo) (kw : String) (item : FeedItem)
    (hvalid : isValidNews item = true) (hkw : kw.isEmpty = false) :
    ((processFeedItem resolveUrl resolveImage now fi (some kw) item).isSome =
      (matchesKeyword (jsOrStr item.title "") kw ||
        decide (2 ≤ countKeywordOccurrences
          (jsOrStr item.contentSnippet (jsOrStr item.content (jsOrStr item.summary ""))) kw))) ∧
    (∀ items, ∃ rec,
      scrapeFromFeedItems resolveUrl resolveImage now fi (some kw) (item :: items) =
        (if matchesKeyword (jsOrStr item.title "") kw = true ∨
            2 ≤ countKeywordOccurrences
              (jsOrStr item.contentSnippet (jsOrStr item.content (jsOrStr item.summary ""))) kw
         then [rec] else []) ++
          scrapeFromFeedItems resolveUrl resolveImage now fi (some kw) items) := by
  have hkeep :
      (if kw.isEmpty then true
       else !(!matchesKeyword (jsOrStr item.title "") kw &&
          countKeywordOccurrences
            (jsOrStr item.contentSnippet (jsOrStr item.content (jsOrStr item.summary ""))) kw < 2)) =
      (matchesKeyword (jsOrStr item.title "") kw ||
        decide (2 ≤ countKeywordOccurrences
          (jsOrStr item.contentSnippet (jsOrStr item.content (jsOrStr item.summary ""))) kw)) := by
    rw [hkw]
    simp only [Bool.false_eq_true, if_false]
    cases hm : matchesKeyword (jsOrStr item.title "") kw
    · simp only [Bool.not_false, Bool.true_and, Bool.false_or]
      rw [← decide_not]
      exact decide_eq_decide.mpr (by omega)
    · simp
  have hP : processFeedItem resolveUrl resolveImage now fi (some kw) item =
      (if (matchesKeyword (jsOrStr item.title "") kw ||
          decide (2 ≤ countKeywordOccurrences
            (jsOrStr item.contentSnippet (jsOrStr item.content (jsOrStr item.summary ""))) kw)) then
        some
          { title := jsTrim (jsOrStr item.title "")
            description := jsTrim (strTake
              (jsOrStr item.contentSnippet (jsOrStr item.content (jsOrStr item.summary ""))) 500)
            url := resolveUrl item.link
            imageUrl := resolveImage item (resolveUrl item.link)
            publishedAt := item.pubDate.getD now
            source := fi.source
            category := fi.category
            feedKey := fi.key }
       else none) := by
    simp only [processFeedItem, hvalid, Bool.not_true, Bool.false_eq_true, if_false, hkeep]
  constructor
  · rw [hP]
    cases hc : (matchesKeyword (jsOrStr item.title "") kw ||
        decide (2 ≤ countKeywordOccurrences
          (jsOrStr item.contentSnippet (jsOrStr item.content (jsOrStr item.summary ""))) kw)) <;>
      simp [hc]
  · intro items
    refine ⟨{ title := jsTrim (jsOrStr item.title "")
              description := jsTrim (strTake
                (jsOrStr item.contentSnippet (jsOrStr item.content (jsOrStr item.summary ""))) 500)
              url := resolveUrl item.link
              imageUrl := resolveImage item (resolveUrl item.link)
              publishedAt := item.pubDate.getD now
              source := fi.source
              category := fi.category
              feedKey := fi.key }, ?_⟩
    simp only [scrapeFromFeedItems, List.filterMap_cons, hP]
    by_cases hc : matchesKeyword (jsOrStr item.title "") kw = true ∨
        2 ≤ countKeywordOccurrences
          (jsOrStr item.contentSnippet (jsOrStr item.content (jsOrStr item.summary ""))) kw
    · have hb : (matchesKeyword (jsOrStr item.title "") kw ||
          decide (2 ≤ countKeywordOccurrences
            (jsOrStr item.contentSnippet (jsOrStr item.content (jsOrStr item.summary ""))) kw)) = true := by
        rcases hc with hc | hc <;> simp [hc]
      simp [hb, hc]
    · have hb : (matchesKeyword (jsOrStr item.title "") kw ||
          decide (2 ≤ countKeywordOccurrences
            (jsOrStr item.contentSnippet (jsOrStr item.content (jsOrStr item.summary ""))) kw)) = false := by
        push_neg at hc
        simp [hc.1, hc.2]
      simp [hb, hc]

/-- Witness for C8: a valid economy headline matching keyword "dolar" in the
title is kept. -/
theorem scrapeFromFeed_keyword_filter_witness :
    (processFeedItem (fun u => u) (fun _ _ => none) 0
      { key := "ntv_ekonomi", url := "https://www.ntv.com.tr/ekonomi.rss"
        category := "Ekonomi", source := "NTV" }
      (some "dolar")
      { title := some "Dolar rekor kırdı piyasalar hareketli"
        contentSnippet := some "Kurlar gün boyunca yükseldi"
        content := none, summary := none
        link := some "https://example.com/a", pubDate := some 0 }).isSome = true :=
  ((scrapeFromFeed_keyword_filter (fun u => u) (fun _ _ => none) 0
      { key := "ntv_ekonomi", url := "https://www.ntv.com.tr/ekonomi.rss"
        category := "Ekonomi", source := "NTV" }
      "dolar"
      { title := some "Dolar rekor kırdı piyasalar hareketli"
        contentSnippet := some "Kurlar gün boyunca yükseldi"
        content := none, summary := none
        link := some "https://example.com/a", pubDate := some 0 }
      (by decide) (by decide)).1).trans (by decide)

/-- The sort comparator is transitive. -/
theorem scoreLe_trans : ∀ a b c : ScoredItem,
    decide (b.relevanceScore ≤ a.relevanceScore) = true →
    decide (c.relevanceScore ≤ b.relevanceScore) = true →
    decide (c.relevanceScore ≤ a.relevanceScore) = true := by
  intro a b c hab hbc
  simp only [decide_eq_true_eq] at hab hbc ⊢
  omega

/-- The sort comparator is total. -/
theorem scoreLe_total : ∀ a b : ScoredItem,
    (decide (b.relevanceScore ≤ a.relevanceScore) ||
      decide (a.relevanceScore ≤ b.relevanceScore)) = true := by
  intro a b
  rcases Int.le_total b.relevanceScore a.relevanceScore with h | h <;> simp [h]

/-- Once a url is in the seen set, the single-pass deduplication never emits
another item with that url. -/
theorem dedupByUrl_filter_of_mem_seen (u : String) :
    ∀ (l : List ScoredItem) (seen : List String), u ∈ seen →
      (dedupByUrl seen l).filter (fun x => decide (x.url = some u)) = [] := by
  intro l
  induction l with
  | nil => intro seen _; rfl
  | cons x t ih =>
    intro seen hu
    simp only [dedupByUrl]
    cases hx : x.url with
    | none => exact ih seen hu
    | some v =>
      by_cases hv : (v.isEmpty || decide (v ∈ seen)) = true
      · simp only [hv, if_true]
        exact ih seen hu
      · have hvu : v ≠ u := by
          intro h
          subst h
          simp [hu] at hv
        simp only [hv, Bool.false_eq_true, if_false, List.filter_cons, hx]
        have : decide (some v = some u) = false := by simp [hvu]
        simp only [this, Bool.false_eq_true, if_false]
        exact ih (v :: seen) (List.mem_cons_of_mem v hu)

/-- For a nonempty url not yet seen, the single-pass deduplication keeps
exactly the first item carrying that url. -/
theorem dedupByUrl_filter_first (u : String) (hne : u.isEmpty = false) :
    ∀ (l : List ScoredItem) (seen : List String), u ∉ seen →
      (dedupByUrl seen l).filter (fun x => decide (x.url = some u)) =
        (l.filter (fun x => decide (x.url = some u))).take 1 := by
  intro l
  induction l with
  | nil => intro seen _; rfl
  | cons x t ih =>
    intro seen hu
    simp only [dedupByUrl, List.filter_cons]
    cases hx : x.url with
    | none =>
      have : decide ((none : Option String) = some u) = false := by simp
      simp only [this, Bool.false_eq_true, if_false]
      exact ih seen hu
    | some v =>
      by_cases hv : (v.isEmpty || decide (v ∈ seen)) = true
      · have hvu : v ≠ u := by
          intro h
          subst h
          simp only [hne, Bool.false_or, decide_eq_true_eq] at hv
          exact hu hv
        have : decide (some v = some u) = false := by simp [hvu]
        simp only [hv, if_true, this, Bool.false_eq_true, if_false]
        exact ih seen hu
      · simp only [hv, Bool.false_eq_true, if_false, List.filter_cons, hx]
        by_cases hvu : v = u
        · subst hvu
          have : decide (some v = some v) = true := by simp
          simp only [this, if_true]
          have hrest := dedupByUrl_filter_of_mem_seen v t (v :: seen)
            (List.mem_cons_self v seen)
          rw [hrest]
          rfl
        · have : decide (some v = some u) = false := by simp [hvu]
          simp only [this, Bool.false_eq_true, if_false]
          exact ih (v :: seen) (by
            intro h
            rcases List.mem_cons.mp h with h | h
            · exact hvu h.symm
            · exact hu h)

/-- Deduplication never lengthens the list. -/
theorem dedupByUrl_length_le :
    ∀ (l : List ScoredItem) (seen : List String),
      (dedupByUrl seen l).length ≤ l.length := by
  intro l
  induction l with
  | nil => intro seen; exact Nat.le_refl 0
  | cons x t ih =>
    intro seen
    simp only [dedupByUrl]
    cases x.url with
    | none => exact Nat.le_succ_of_le (ih seen)
    | some v =>
      by_cases hv : (v.isEmpty || decide (v ∈ seen)) = true
      · simp only [hv, if_true]
        exact Nat.le_succ_of_le (ih seen)
      · simp only [hv, Bool.false_eq_true, if_false, List.length_cons]
        exact Nat.succ_le_succ (ih (v :: seen))

/-- In a list sorted descending by score, the head of any filter dominates
every element of the list satisfying the filter. -/
theorem filter_head_ge (p : ScoredItem → Bool) :
    ∀ (l : List ScoredItem),
      List.Pairwise (fun a b : ScoredItem => b.relevanceScore ≤ a.relevanceScore) l →
      ∀ e t, l.filter p = e :: t →
      ∀ x ∈ l, p x = true → x.relevanceScore ≤ e.relevanceScore := by
  intro l
  induction l with
  | nil => intro _ e t h; exact absurd h (by simp)
  | cons a tl ih =>
    intro hpw e t heq x hx hpx
    rcases List.pairwise_cons.mp hpw with ⟨hhead, htl⟩
    rw [List.filter_cons] at heq
    by_cases hpa : p a = true
    · simp only [hpa, if_true] at heq
      have hea : e = a := (List.cons.injEq _ _ _ _ ▸ heq).1.symm
      subst hea
      rcases List.mem_cons.mp hx with rfl | hx
      · exact Int.le_refl _
      · exact hhead x hx
    · simp only [hpa, Bool.false_eq_true, if_false] at heq
      rcases List.mem_cons.mp hx with rfl | hx
      · exact absurd hpx hpa
      · exact ih htl e t heq x hx hpx

/-- C2: each scored item's relevance score is
`10*titleOcc + 2*descOcc + (5 if Google News) + recencyBonus`, and the sort
stage is a stable descending sort by that score: the sorted list is pairwise
descending, is a permutation of the scored list, and every pair already in
nonincreasing order (in particular every tie) keeps its relative order. -/
theorem liveSearch_relevance_scoring (kw : String) (now : Int) (items : List AggItem) :
    (∀ x ∈ scoreAll kw now items,
      x.relevanceScore = specRelevanceScore kw now x.toAggItem) ∧
    List.Pairwise (fun a b : ScoredItem => b.relevanceScore ≤ a.relevanceScore)
      (sortByScore (scoreAll kw now items)) ∧
    (sortByScore (scoreAll kw now items)).Perm (scoreAll kw now items) ∧
    (∀ a b : ScoredItem, [a, b].Sublist (scoreAll kw now items) →
      b.relevanceScore ≤ a.relevanceScore →
      [a, b].Sublist (sortByScore (scoreAll kw now items))) := by
  refine ⟨?_, ?_, List.mergeSort_perm _ _, ?_⟩
  · intro x hx
    simp only [scoreAll, List.mem_map] at hx
    obtain ⟨it, _, rfl⟩ := hx
    simp only [computeScore, specRelevanceScore, recencyBonus]
    ring
  · exact (List.sorted_mergeSort scoreLe_trans scoreLe_total _).imp
      (fun h => of_decide_eq_true h)
  · intro a b hsub hle
    exact List.pair_sublist_mergeSort scoreLe_trans scoreLe_total
      (decide_eq_true hle) hsub

/-- Witness for C2: the score formula at a concrete scored item, and
stability at a concrete pair of equal-score items. -/
theorem liveSearch_relevance_scoring_witness :
    ({ toAggItem :=
        { title := "Piyasa haberi bir", description := "", url := some "https://ex.com/x"
          imageUrl := none, publishedAt := 0, source := "NTV", category := "Ekonomi"
          feedKey := "ntv_ekonomi" }
       relevanceScore := 20 } : ScoredItem).relevanceScore =
      specRelevanceScore "dolar" 0
        { title := "Piyasa haberi bir", description := "", url := some "https://ex.com/x"
          imageUrl := none, publishedAt := 0, source := "NTV", category := "Ekonomi"
          feedKey := "ntv_ekonomi" } ∧
    [({ toAggItem :=
        { title := "Piyasa haberi bir", description := "", url := some "https://ex.com/x"
          imageUrl := none, publishedAt := 0, source := "NTV", category := "Ekonomi"
          feedKey := "ntv_ekonomi" }
        relevanceScore := 20 } : ScoredItem),
      { toAggItem :=
        { title := "Piyasa haberi iki", description := "", url := some "https://ex.com/y"
          imageUrl := none, publishedAt := 0, source := "NTV", category := "Ekonomi"
          feedKey := "ntv_ekonomi" }
        relevanceScore := 20 }].Sublist
      (sortByScore (scoreAll "dolar" 0
        [ { title := "Piyasa haberi bir", description := "", url := some "https://ex.com/x"
            imageUrl := none, publishedAt := 0, source := "NTV", category := "Ekonomi"
            feedKey := "ntv_ekonomi" }
        , { title := "Piyasa haberi iki", description := "", url := some "https://ex.com/y"
            imageUrl := none, publishedAt := 0, source := "NTV", category := "Ekonomi"
            feedKey := "ntv_ekonomi" } ])) :=
  ⟨(liveSearch_relevance_scoring "dolar" 0
      [ { title := "Piyasa haberi bir", description := "", url := some "https://ex.com/x"
          imageUrl := none, publishedAt := 0, source := "NTV", category := "Ekonomi"
          feedKey := "ntv_ekonomi" }
      , { title := "Piyasa haberi iki", description := "", url := some "https://ex.com/y"
          imageUrl := none, publishedAt := 0, source := "NTV", category := "Ekonomi"
          feedKey := "ntv_ekonomi" } ]).1 _ (by decide),
   (liveSearch_relevance_scoring "dolar" 0
      [ { title := "Piyasa haberi bir", description := "", url := some "https://ex.com/x"
          imageUrl := none, publishedAt := 0, source := "NTV", category := "Ekonomi"
          feedKey := "ntv_ekonomi" }
      , { title := "Piyasa haberi iki", description := "", url := some "https://ex.com/y"
          imageUrl := none, publishedAt := 0, source := "NTV", category := "Ekonomi"
          feedKey := "ntv_ekonomi" } ]).2.2.2 _ _ (by decide) (by decide)⟩

/-- C1: when the aggregated results contain two items with the same url and
different relevance scores (and the result set fits in the limit), the
returned list contains exactly one entry for that url, and its score
dominates the score of every aggregated item with that url — deduplication
runs after the descending stable sort, so the highest-scored duplicate
survives. -/
theorem liveSearch_dedup_keeps_highest (kw : String) (now : Int) (limit : Nat)
    (items : List AggItem) (u : String) (a b : ScoredItem)
    (hne : u.isEmpty = false)
    (ha : a ∈ scoreAll kw now items) (hb : b ∈ scoreAll kw now items)
    (hau : a.url = some u) (hbu : b.url = some u)
    (hab : a.relevanceScore ≠ b.relevanceScore)
    (hlim : items.length ≤ limit) :
    ∃ e, (liveSearchRank kw now limit items).filter
        (fun x => decide (x.url = some u)) = [e] ∧
      ∀ x ∈ scoreAll kw now items, x.url = some u →
        x.relevanceScore ≤ e.relevanceScore := by
  have hperm : (sortByScore (scoreAll kw now items)).Perm (scoreAll kw now items) :=
    List.mergeSort_perm _ _
  have hmemA : a ∈ sortByScore (scoreAll kw now items) := hperm.mem_iff.mpr ha
  have hmemFilter : a ∈ (sortByScore (scoreAll kw now items)).filter
      (fun x => decide (x.url = some u)) :=
    List.mem_filter.mpr ⟨hmemA, by simp [hau]⟩
  obtain ⟨e, t, heq⟩ : ∃ e t, (sortByScore (scoreAll kw now items)).filter
      (fun x => decide (x.url = some u)) = e :: t := by
    cases hc : (sortByScore (scoreAll kw now items)).filter
        (fun x => decide (x.url = some u)) with
    | nil => rw [hc] at hmemFilter; exact absurd hmemFilter (List.not_mem_nil a)
    | cons e t => exact ⟨e, t, rfl⟩
  have hdedup : (dedupByUrl [] (sortByScore (scoreAll kw now items))).filter
      (fun x => decide (x.url = some u)) = [e] := by
    rw [dedupByUrl_filter_first u hne _ [] (List.not_mem_nil u), heq]
    rfl
  have hlen : (dedupByUrl [] (sortByScore (scoreAll kw now items))).length ≤ limit := by
    calc (dedupByUrl [] (sortByScore (scoreAll kw now items))).length
        ≤ (sortByScore (scoreAll kw now items)).length := dedupByUrl_length_le _ _
      _ = (scoreAll kw now items).length := List.length_mergeSort _
      _ = items.length := List.length_map _ _
      _ ≤ limit := hlim
  have hrank : liveSearchRank kw now limit items =
      dedupByUrl [] (sortByScore (scoreAll kw now items)) := by
    rw [liveSearchRank]
    exact List.take_of_length_le hlen
  refine ⟨e, by rw [hrank, hdedup], ?_⟩
  intro x hx hxu
  have hsorted : List.Pairwise
      (fun a b : ScoredItem => b.relevanceScore ≤ a.relevanceScore)
      (sortByScore (scoreAll kw now items)) :=
    (List.sorted_mergeSort scoreLe_trans scoreLe_total _).imp
      (fun h => of_decide_eq_true h)
  exact filter_head_ge _ _ hsorted e t heq x (hperm.mem_iff.mpr hx) (by simp [hxu])

/-- Witness for C1: two aggregated items share a url with scores 20 and 5
(recency bonuses of a fresh and a seven-hour-old item); the ranked output
keeps exactly one entry for the url and it dominates both. -/
theorem liveSearch_dedup_keeps_highest_witness :
    ∃ e, (liveSearchRank "dolar" 0 100
        [ { title := "Piyasa haberi bir", description := "", url := some "https://ex.com/x"
            imageUrl := none, publishedAt := 0, source := "NTV", category := "Ekonomi"
            feedKey := "ntv_ekonomi" }
        , { title := "Piyasa haberi iki", description := "", url := some "https://ex.com/x"
            imageUrl := none, publishedAt := -25200000, source := "Sabah"
            category := "Ekonomi", feedKey := "sabah_ekonomi" } ]).filter
        (fun x => decide (x.url = some "https://ex.com/x")) = [e] ∧
      ∀ x ∈ scoreAll "dolar" 0
        [ { title := "Piyasa haberi bir", description := "", url := some "https://ex.com/x"
            imageUrl := none, publishedAt := 0, source := "NTV", category := "Ekonomi"
            feedKey := "ntv_ekonomi" }
        , { title := "Piyasa haberi iki", description := "", url := some "https://ex.com/x"
            imageUrl := none, publishedAt := -25200000, source := "Sabah"
            category := "Ekonomi", feedKey := "sabah_ekonomi" } ],
        x.url = some "https://ex.com/x" → x.relevanceScore ≤ e.relevanceScore :=
  liveSearch_dedup_keeps_highest "dolar" 0 100 _ "https://ex.com/x"
    { toAggItem :=
        { title := "Piyasa haberi bir", description := "", url := some "https://ex.com/x"
          imageUrl := none, publishedAt := 0, source := "NTV", category := "Ekonomi"
          feedKey := "ntv_ekonomi" }
      relevanceScore := 20 }
    { toAggItem :=
        { title := "Piyasa haberi iki", description := "", url := some "https://ex.com/x"
          imageUrl := none, publishedAt := -25200000, source := "Sabah"
          category := "Ekonomi", feedKey := "sabah_ekonomi" }
      relevanceScore := 5 }
    (by decide) (by decide) (by decide) (by decide) (by decide) (by decide) (by decide)

/-- Running the loop with a nonzero accumulator shifts the result by the
accumulator. -/
theorem saveNewsLoop_shift (beh : DbBehaviour) :
    ∀ (items : List NewsItem) (db : Db) (acc : SaveResult),
      saveNewsLoop beh db acc items =
        ((saveNews beh db items).1,
         { saved := acc.saved + (saveNews beh db items).2.saved
           duplicates := acc.duplicates + (saveNews beh db items).2.duplicates
           errors := acc.errors ++ (saveNews beh db items).2.errors }) := by
  intro items
  induction items with
  | nil => intro db acc; simp [saveNews, saveNewsLoop]
  | cons it rest ih =>
    intro db acc
    rw [saveNews]
    cases h : beh db it with
    | ok upserted db2 =>
      cases upserted <;>
        simp only [saveNewsLoop, h] <;>
        rw [ih, ih] <;>
        simp [Nat.add_assoc]
    | err code msg =>
      by_cases hc : code = 11000 <;>
        simp only [saveNewsLoop, h, hc, if_true, if_false, reduceIte] <;>
        rw [ih, ih] <;>
        simp [Nat.add_assoc]

/-- Unfolding `saveNews` on a successful insert. -/
theorem saveNews_cons_insert (beh : DbBehaviour) (db db2 : Db) (it : NewsItem)
    (rest : List NewsItem) (h : beh db it = DbResult.ok true db2) :
    saveNews beh db (it :: rest) =
      ((saveNews beh db2 rest).1,
       { saved := 1 + (saveNews beh db2 rest).2.saved
         duplicates := (saveNews beh db2 rest).2.duplicates
         errors := (saveNews beh db2 rest).2.errors }) := by
  rw [saveNews, saveNewsLoop, h]
  simp [saveNewsLoop_shift]

/-- Unfolding `saveNews` on an update of an existing url. -/
theorem saveNews_cons_update (beh : DbBehaviour) (db db2 : Db) (it : NewsItem)
    (rest : List NewsItem) (h : beh db it = DbResult.ok false db2) :
    saveNews beh db (it :: rest) =
      ((saveNews beh db2 rest).1,
       { saved := (saveNews beh db2 rest).2.saved
         duplicates := 1 + (saveNews beh db2 rest).2.duplicates
         errors := (saveNews beh db2 rest).2.errors }) := by
  rw [saveNews, saveNewsLoop, h]
  simp [saveNewsLoop_shift]

/-- Unfolding `saveNews` on an `E11000` duplicate-key driver error. -/
theorem saveNews_cons_dupkey (beh : DbBehaviour) (db : Db) (it : NewsItem)
    (rest : List NewsItem) (msg : String) (h : beh db it = DbResult.err 11000 msg) :
    saveNews beh db (it :: rest) =
      ((saveNews beh db rest).1,
       { saved := (saveNews beh db rest).2.saved
         duplicates := 1 + (saveNews beh db rest).2.duplicates
         errors := (saveNews beh db rest).2.errors }) := by
  rw [saveNews, saveNewsLoop, h]
  simp [saveNewsLoop_shift]

/-- Unfolding `saveNews` on any other driver error. -/
theorem saveNews_cons_err (beh : DbBehaviour) (db : Db) (it : NewsItem)
    (rest : List NewsItem) (code : Int) (msg : String)
    (h : beh db it = DbResult.err code msg) (hc : code ≠ 11000) :
    saveNews beh db (it :: rest) =
      ((saveNews beh db rest).1,
       { saved := (saveNews beh db rest).2.saved
         duplicates := (saveNews beh db rest).2.duplicates
         errors := (it.url, msg) :: (saveNews beh db rest).2.errors }) := by
  rw [saveNews, saveNewsLoop, h]
  simp [hc, saveNewsLoop_shift]

/-- Every iteration of the save loop increments exactly one of the three
counters. -/
theorem saveNews_counter_sum (beh : DbBehaviour) :
    ∀ (items : List NewsItem) (db : Db),
      (saveNews beh db items).2.saved + (saveNews beh db items).2.duplicates +
        (saveNews beh db items).2.errors.length = items.length := by
  intro items
  induction items with
  | nil => intro db; rfl
  | cons it rest ih =>
    intro db
    cases h : beh db it with
    | ok upserted db2 =>
      cases upserted
      · rw [saveNews_cons_update beh db db2 it rest h]
        have := ih db2
        simp only [List.length_cons]
        omega
      · rw [saveNews_cons_insert beh db db2 it rest h]
        have := ih db2
        simp only [List.length_cons]
        omega
    | err code msg =>
      by_cases hc : code = 11000
      · subst hc
        rw [saveNews_cons_dupkey beh db it rest msg h]
        have := ih db
        simp only [List.length_cons]
        omega
      · rw [saveNews_cons_err beh db it rest code msg h hc]
        have := ih db
        simp only [List.length_cons, List.length_cons]
        simp only [List.length_cons] at this ⊢
        omega

/-- C10: for every input list and every driver behaviour, `saveNews` returns
with `saved + duplicates + errors.length` equal to the number of items; a
driver error with code 11000 is counted as a duplicate, and any other driver
error is recorded as an `(url, message)` entry while the loop continues over
the remaining items — no per-item failure aborts the batch. -/
theorem saveNews_error_partition (beh : DbBehaviour) (db : Db) (items : List NewsItem) :
    ((saveNews beh db items).2.saved + (saveNews beh db items).2.duplicates +
      (saveNews beh db items).2.errors.length = items.length) ∧
    (∀ it rest msg, beh db it = DbResult.err 11000 msg →
      (saveNews beh db (it :: rest)).2 =
        { saved := (saveNews beh db rest).2.saved
          duplicates := 1 + (saveNews beh db rest).2.duplicates
          errors := (saveNews beh db rest).2.errors }) ∧
    (∀ it rest code msg, beh db it = DbResult.err code msg → code ≠ 11000 →
      (saveNews beh db (it :: rest)).2 =
        { saved := (saveNews beh db rest).2.saved
          duplicates := (saveNews beh db rest).2.duplicates
          errors := (it.url, msg) :: (saveNews beh db rest).2.errors }) := by
  refine ⟨saveNews_counter_sum beh items db, ?_, ?_⟩
  · intro it rest msg h
    rw [saveNews_cons_dupkey beh db it rest msg h]
  · intro it rest code msg h hc
    rw [saveNews_cons_err beh db it rest code msg h hc]

/-- Witness for C10: a behaviour that always raises `E11000` counts the item
as a duplicate; a behaviour that raises another error records the url and
message and still terminates normally. -/
theorem saveNews_error_partition_witness :
    (saveNews (fun _ _ => DbResult.err 11000 "E11000 duplicate key")
      [] [{ title := "t", summary := "s", url := "https://ex.com/x", imageUrl := none
            category := "Ekonomi", source := "NTV", keywords := [], publishedAt := 0
            scrapedAt := none }]).2 =
      { saved := 0, duplicates := 1, errors := [] } ∧
    (saveNews (fun _ _ => DbResult.err 121 "Document failed validation")
      [] [{ title := "t", summary := "s", url := "https://ex.com/x", imageUrl := none
            category := "Ekonomi", source := "NTV", keywords := [], publishedAt := 0
            scrapedAt := none }]).2 =
      { saved := 0, duplicates := 0
        errors := [("https://ex.com/x", "Document failed validation")] } :=
  ⟨((saveNews_error_partition (fun _ _ => DbResult.err 11000 "E11000 duplicate key")
      [] []).2.1
      { title := "t", summary := "s", url := "https://ex.com/x", imageUrl := none
        category := "Ekonomi", source := "NTV", keywords := [], publishedAt := 0
        scrapedAt := none } [] "E11000 duplicate key" rfl).trans (by decide),
   ((saveNews_error_partition (fun _ _ => DbResult.err 121 "Document failed validation")
      [] []).2.2
      { title := "t", summary := "s", url := "https://ex.com/x", imageUrl := none
        category := "Ekonomi", source := "NTV", keywords := [], publishedAt := 0
        scrapedAt := none } [] 121 "Document failed validation" rfl
      (by decide)).trans (by decide)⟩

/-- The `createdAt` value the upsert would use for a url: the existing
record's on update, the clock on insert. -/
def createdOf (db : Db) (u : String) (now : Int) : Int :=
  match dbFind db u with
  | some r => r.createdAt
  | none => now

/-- The last item of the list carrying a given url (the one whose `$set`
wins), if any. -/
def lastWith (u : String) : List NewsItem → Option NewsItem
  | [] => none
  | it :: rest =>
    match lastWith u rest with
    | some x => some x
    | none => if it.url = u then some it else none

/-- Lookup after writing the same key. -/
theorem dbFind_dbSet_same : ∀ (db : Db) (u : String) (r : StoredRecord),
    dbFind (dbSet db u r) u = some r := by
  intro db
  induction db with
  | nil => intro u r; simp [dbSet, dbFind]
  | cons p t ih =>
    intro u r
    by_cases h : p.1 = u
    · simp [dbSet, h, dbFind]
    · simp [dbSet, h, dbFind, ih]

/-- Lookup after writing a different key. -/
theorem dbFind_dbSet_ne : ∀ (db : Db) (u : String) (r : StoredRecord) (v : String),
    u ≠ v → dbFind (dbSet db u r) v = dbFind db v := by
  intro db
  induction db with
  | nil => intro u r v huv; simp [dbSet, dbFind, huv]
  | cons p t ih =>
    intro u r v huv
    by_cases h : p.1 = u
    · simp [dbSet, h, dbFind, huv]
    · by_cases h2 : p.1 = v
      · simp [dbSet, h, dbFind, h2, Ne.symm huv]
      · simp [dbSet, h, dbFind, h2, ih u r v huv]

/-- Writing a record never removes a key. -/
theorem dbFind_dbSet_isSome (db : Db) (u : String) (r : StoredRecord) (v : String)
    (h : (dbFind db v).isSome = true) : (dbFind (dbSet db u r) v).isSome = true := by
  by_cases huv : u = v
  · subst huv
    rw [dbFind_dbSet_same]
    rfl
  · rw [dbFind_dbSet_ne db u r v huv]
    exact h

/-- The collection written by one upsert. -/
theorem updateOneUpsert_db (now : Int) (db : Db) (it : NewsItem) :
    (updateOneUpsert now db it).2 =
      dbSet db it.url (applySet now it (createdOf db it.url now)) := by
  unfold updateOneUpsert createdOf
  cases dbFind db it.url <;> rfl

/-- The upsert reports an insert exactly when the url was absent. -/
theorem updateOneUpsert_fst (now : Int) (db : Db) (it : NewsItem) :
    (updateOneUpsert now db it).1 = !(dbFind db it.url).isSome := by
  unfold updateOneUpsert
  cases dbFind db it.url <;> rfl

/-- The database component of a failure-free save run does not depend on the
reported flags: it steps through the upserts. -/
theorem saveNews_fst_ok (beh : DbBehaviour) (db db2 : Db) (it : NewsItem)
    (rest : List NewsItem) (b : Bool) (h : beh db it = DbResult.ok b db2) :
    (saveNews beh db (it :: rest)).1 = (saveNews beh db2 rest).1 := by
  cases b
  · rw [saveNews_cons_update beh db db2 it rest h]
  · rw [saveNews_cons_insert beh db db2 it rest h]

/-- Characterization of the collection after a failure-free `saveNews` run:
a url untouched by the items keeps its record; a url carried by some item
holds the `$set` image of the last such item, with `createdAt` resolved
against the starting collection. -/
theorem saveNews_mongo_find (now : Int) :
    ∀ (items : List NewsItem) (db : Db) (u : String),
      dbFind (saveNews (mongoBehaviour now) db items).1 u =
        match lastWith u items with
        | some it => some (applySet now it (createdOf db u now))
        | none => dbFind db u := by
  intro items
  induction items with
  | nil => intro db u; rfl
  | cons it rest ih =>
    intro db u
    have hbeh : mongoBehaviour now db it =
        DbResult.ok (updateOneUpsert now db it).1 (updateOneUpsert now db it).2 := rfl
    rw [saveNews_fst_ok (mongoBehaviour now) db (updateOneUpsert now db it).2 it rest
      (updateOneUpsert now db it).1 hbeh]
    rw [ih]
    rw [updateOneUpsert_db]
    by_cases hu : it.url = u
    · subst hu
      cases hrest : lastWith it.url rest with
      | some it2 =>
        have hlast : lastWith it.url (it :: rest) = some it2 := by
          simp [lastWith, hrest]
        rw [hlast]
        have hfind : createdOf
            (dbSet db it.url (applySet now it (createdOf db it.url now))) it.url now =
            createdOf db it.url now := by
          unfold createdOf
          rw [dbFind_dbSet_same]
          simp [applySet]
        rw [hfind]
      | none =>
        have hlast : lastWith it.url (it :: rest) = some it := by
          simp [lastWith, hrest]
        rw [hlast, dbFind_dbSet_same]
    · have hset : dbFind (dbSet db it.url (applySet now it (createdOf db it.url now))) u =
          dbFind db u := dbFind_dbSet_ne db it.url _ u hu
      cases hrest : lastWith u rest with
      | some it2 =>
        have hlast : lastWith u (it :: rest) = some it2 := by
          simp [lastWith, hrest]
        rw [hlast]
        have hcre : createdOf
            (dbSet db it.url (applySet now it (createdOf db it.url now))) u now =
            createdOf db u now := by
          unfold createdOf
          rw [dbFind_dbSet_ne db it.url _ u hu]
        rw [hcre]
      | none =>
        have hlast : lastWith u (it :: rest) = none := by
          simp [lastWith, hrest, hu]
        rw [hlast, hset]

/-- A failure-free run reports no errors. -/
theorem saveNews_mongo_no_errors (now : Int) :
    ∀ (items : List NewsItem) (db : Db),
      (saveNews (mongoBehaviour now) db items).2.errors = [] := by
  intro items
  induction items with
  | nil => intro db; rfl
  | cons it rest ih =>
    intro db
    have hbeh : mongoBehaviour now db it =
        DbResult.ok (updateOneUpsert now db it).1 (updateOneUpsert now db it).2 := rfl
    cases hb : (updateOneUpsert now db it).1
    · rw [saveNews_cons_update (mongoBehaviour now) db (updateOneUpsert now db it).2 it rest
        (hb ▸ hbeh)]
      exact ih _
    · rw [saveNews_cons_insert (mongoBehaviour now) db (updateOneUpsert now db it).2 it rest
        (hb ▸ hbeh)]
      exact ih _

/-- When every item's url is already present, a failure-free run inserts
nothing and reports one duplicate per item. -/
theorem saveNews_mongo_all_present (now : Int) :
    ∀ (items : List NewsItem) (db : Db),
      (∀ it ∈ items, (dbFind db it.url).isSome = true) →
      (saveNews (mongoBehaviour now) db items).2.saved = 0 ∧
      (saveNews (mongoBehaviour now) db items).2.duplicates = items.length := by
  intro items
  induction items with
  | nil => intro db _; exact ⟨rfl, rfl⟩
  | cons it rest ih =>
    intro db hpresent
    have hit : (dbFind db it.url).isSome = true :=
      hpresent it (List.mem_cons_self it rest)
    have hflag : (updateOneUpsert now db it).1 = false := by
      rw [updateOneUpsert_fst, hit]
      rfl
    have hbeh : mongoBehaviour now db it =
        DbResult.ok false (updateOneUpsert now db it).2 := by
      rw [← hflag]
      rfl
    rw [saveNews_cons_update (mongoBehaviour now) db (updateOneUpsert now db it).2 it rest hbeh]
    have hrest := ih (updateOneUpsert now db it).2 (by
      intro it2 hit2
      rw [updateOneUpsert_db]
      exact dbFind_dbSet_isSome db it.url _ it2.url
        (hpresent it2 (List.mem_cons_of_mem it hit2)))
    refine ⟨hrest.1, ?_⟩
    simp [hrest.2, Nat.add_comm]

/-- An item in the list leaves a last writer for its url. -/
theorem lastWith_isSome_of_mem :
    ∀ (items : List NewsItem) (it : NewsItem), it ∈ items →
      (lastWith it.url items).isSome = true := by
  intro items
  induction items with
  | nil => intro it h; exact absurd h (List.not_mem_nil it)
  | cons a rest ih =>
    intro it hmem
    rcases List.mem_cons.mp hmem with rfl | hmem
    · simp only [lastWith]
      cases lastWith it.url rest with
      | some x => rfl
      | none => simp
    · have hsome := ih it hmem
      simp only [lastWith]
      cases hrest : lastWith it.url rest with
      | some x => rfl
      | none => rw [hrest] at hsome; simp at hsome

/-- Two optional stored records that agree on every field except possibly
`scrapedAt`. -/
def agreeExceptScrapedAt : Option StoredRecord → Option StoredRecord → Prop
  | none, none => True
  | some r1, some r2 =>
    r1.title = r2.title ∧ r1.summary = r2.summary ∧ r1.url = r2.url ∧
    r1.imageUrl = r2.imageUrl ∧ r1.category = r2.category ∧ r1.source = r2.source ∧
    r1.keywords = r2.keywords ∧ r1.publishedAt = r2.publishedAt ∧
    r1.isActive = r2.isActive ∧ r1.createdAt = r2.createdAt
  | _, _ => False

/-- Equal lookups agree except `scrapedAt`. -/
theorem agreeExceptScrapedAt_refl (o : Option StoredRecord) :
    agreeExceptScrapedAt o o := by
  cases o <;> simp [agreeExceptScrapedAt]

/-- C9: the upsert is idempotent keyed by url — a second failure-free run of
`saveNews` on the same item list inserts nothing (every item counts as a
duplicate), and each stored record after the second run equals the record
after the first except possibly `scrapedAt`: the re-upsert overwrites the
mutable fields with the same item data while `createdAt` (written only by
`$setOnInsert`) is untouched. -/
theorem saveNews_upsert_idempotent (now1 now2 : Int) (db0 : Db) (items : List NewsItem) :
    (saveNews (mongoBehaviour now1) db0 items).2.saved +
      (saveNews (mongoBehaviour now1) db0 items).2.duplicates = items.length ∧
    (saveNews (mongoBehaviour now1) db0 items).2.errors = [] ∧
    (saveNews (mongoBehaviour now2)
      (saveNews (mongoBehaviour now1) db0 items).1 items).2.saved = 0 ∧
    (saveNews (mongoBehaviour now2)
      (saveNews (mongoBehaviour now1) db0 items).1 items).2.duplicates = items.length ∧
    (saveNews (mongoBehaviour now2)
      (saveNews (mongoBehaviour now1) db0 items).1 items).2.errors = [] ∧
    (∀ u, agreeExceptScrapedAt
      (dbFind (saveNews (mongoBehaviour now1) db0 items).1 u)
      (dbFind (saveNews (mongoBehaviour now2)
        (saveNews (mongoBehaviour now1) db0 items).1 items).1 u)) ∧
    (∀ u it, lastWith u items = some it →
      dbFind (saveNews (mongoBehaviour now1) db0 items).1 u =
        some (applySet now1 it (createdOf db0 u now1)) ∧
      dbFind (saveNews (mongoBehaviour now2)
        (saveNews (mongoBehaviour now1) db0 items).1 items).1 u =
        some (applySet now2 it (createdOf db0 u now1))) := by
  have hsum := saveNews_counter_sum (mongoBehaviour now1) items db0
  have herr1 := saveNews_mongo_no_errors now1 items db0
  have herrlen : (saveNews (mongoBehaviour now1) db0 items).2.errors.length = 0 := by
    rw [herr1]
    rfl
  have hpresent : ∀ it ∈ items,
      (dbFind (saveNews (mongoBehaviour now1) db0 items).1 it.url).isSome = true := by
    intro it hmem
    rw [saveNews_mongo_find now1 items db0 it.url]
    have hsome := lastWith_isSome_of_mem items it hmem
    cases hlast : lastWith it.url items with
    | some it2 => rfl
    | none => rw [hlast] at hsome; simp at hsome
  have hsecond := saveNews_mongo_all_present now2 items
    (saveNews (mongoBehaviour now1) db0 items).1 hpresent
  have hfind2 : ∀ u, dbFind (saveNews (mongoBehaviour now2)
      (saveNews (mongoBehaviour now1) db0 items).1 items).1 u =
      match lastWith u items with
      | some it => some (applySet now2 it (createdOf db0 u now1))
      | none => dbFind (saveNews (mongoBehaviour now1) db0 items).1 u := by
    intro u
    rw [saveNews_mongo_find now2 items _ u]
    cases hlast : lastWith u items with
    | some it =>
      have hcre : createdOf (saveNews (mongoBehaviour now1) db0 items).1 u now2 =
          createdOf db0 u now1 := by
        unfold createdOf
        rw [saveNews_mongo_find now1 items db0 u, hlast]
        rfl
      rw [hcre]
    | none => rfl
  refine ⟨by omega, herr1, hsecond.1, hsecond.2,
    saveNews_mongo_no_errors now2 items _, ?_, ?_⟩
  · intro u
    rw [hfind2 u, saveNews_mongo_find now1 items db0 u]
    cases hlast : lastWith u items with
    | some it => simp [applySet, agreeExceptScrapedAt]
    | none => exact agreeExceptScrapedAt_refl _
  · intro u it hlast
    constructor
    · rw [saveNews_mongo_find now1 items db0 u, hlast]
    · rw [hfind2 u, hlast]

/-- Witness for C9: the last-writer clause applied at a concrete one-item
list, starting from the empty collection. -/
theorem saveNews_upsert_idempotent_witness :
    dbFind (saveNews (mongoBehaviour 1000) []
      [{ title := "t", summary := "s", url := "https://ex.com/x", imageUrl := none
         category := "Ekonomi", source := "NTV", keywords := ["dolar"], publishedAt := 5
         scrapedAt := none }]).1 "https://ex.com/x" =
      some (applySet 1000
        { title := "t", summary := "s", url := "https://ex.com/x", imageUrl := none
          category := "Ekonomi", source := "NTV", keywords := ["dolar"], publishedAt := 5
          scrapedAt := none }
        (createdOf [] "https://ex.com/x" 1000)) ∧
    dbFind (saveNews (mongoBehaviour 2000)
      (saveNews (mongoBehaviour 1000) []
        [{ title := "t", summary := "s", url := "https://ex.com/x", imageUrl := none
           category := "Ekonomi", source := "NTV", keywords := ["dolar"], publishedAt := 5
           scrapedAt := none }]).1
      [{ title := "t", summary := "s", url := "https://ex.com/x", imageUrl := none
         category := "Ekonomi", source := "NTV", keywords := ["dolar"], publishedAt := 5
         scrapedAt := none }]).1 "https://ex.com/x" =
      some (applySet 2000
        { title := "t", summary := "s", url := "https://ex.com/x", imageUrl := none
          category := "Ekonomi", source := "NTV", keywords := ["dolar"], publishedAt := 5
          scrapedAt := none }
        (createdOf [] "https://ex.com/x" 1000)) :=
  (saveNews_upsert_idempotent 1000 2000 []
    [{ title := "t", summary := "s", url := "https://ex.com/x", imageUrl := none
       category := "Ekonomi", source := "NTV", keywords := ["dolar"], publishedAt := 5
       scrapedAt := none }]).2.2.2.2.2.2 "https://ex.com/x"
    { title := "t", summary := "s", url := "https://ex.com/x", imageUrl := none
      category := "Ekonomi", source := "NTV", keywords := ["dolar"], publishedAt := 5
      scrapedAt := none } (by decide)

end NewsPortal
